import Mathlib

/-!
# Verification of the Sigma protocol library (BitcoinSchema/sigma)

Shallow embedding of `src/index.ts` (the current, `@bsv/sdk`-based generation of
the library: the `Sigma` class, `parseSigmaInstances`, `countSigmaInstances`,
`findSigmaPosition`, `deduceRecovery`).

Modelling conventions, fixed once here:

* A script is its chunk list (`Script := List Chunk`), mirroring `script.chunks`
  in the SDK.  A chunk carries an opcode and optional push data, like the SDK's
  `{ op, data }` records.  ASM text round-trips (`Script.fromASM`/`toASM`) are
  the identity at the chunk level: one ASM token per chunk, which is how the SDK
  serializes canonical scripts.  String-level fields that the code re-encodes
  injectively at its boundary (hex-encoded txids, base64-encoded signatures,
  UTF-8 addresses) are modelled directly as byte lists.
* SHA-256 and the ECDSA primitives are external collaborators (spec §1, §4 of
  the code's own docs); they are universally quantified parameters
  (`sha256 : List Nat → List Nat`, and the recovery/verify/address functions),
  since every claim constrains only *what* is fed to them.
* JavaScript partiality (`throw`, `undefined` element access) is `Except` /
  `Option`; JS truthiness is modelled where it matters (an absent field is
  `none`; the empty string is falsy, the empty array is truthy).
-/

namespace Sigma

abbrev Bytes := List Nat

/-- The script opcode `OP_RETURN` (0x6a). -/
def opRETURN : Nat := 106

/-- The protocol marker: the bytes of the ASCII string "SIGMA"
(`sigmaHex = "5349474d41"` in the source; `toUTF8 chunk.data === "SIGMA"`
holds exactly for these bytes). -/
def sigmaMarkerBytes : Bytes := [83, 73, 71, 77, 65]

/-- Bytes of `Algorithm.BSM` ("BSM"). -/
def algoBSMBytes : Bytes := [66, 83, 77]

/-- Bytes of `Algorithm.BRC77` ("BRC77"). -/
def algoBRC77Bytes : Bytes := [66, 82, 67, 55, 55]

/-- A script chunk, as in the SDK's `{ op, data }` records: `data = none` is an
opcode chunk, `data = some d` a push of `d`. -/
structure Chunk where
  op : Nat
  data : Option Bytes
deriving Repr, DecidableEq, Inhabited

abbrev Script := List Chunk

/-- The push opcode `Script.fromASM`/`writeBin` pick for data of a given length
(direct length byte up to 75, else `OP_PUSHDATA1/2/4`). -/
def pushOpOf (d : Bytes) : Nat :=
  if d.length ≤ 75 then d.length
  else if d.length ≤ 255 then 76
  else if d.length ≤ 65535 then 77
  else 78

/-- A data push chunk as produced by parsing an ASM hex token. -/
def mkPush (d : Bytes) : Chunk := ⟨pushOpOf d, some d⟩

/-- `OP_RETURN` as a chunk (the ASM token `OP_RETURN`). -/
def opReturnChunk : Chunk := ⟨opRETURN, none⟩

/-- The single-byte pipe separator `"7c"` as a chunk (a 1-byte push). -/
def pipeChunk : Chunk := mkPush [0x7c]

/-- Little-endian 4-byte encoding, from `writeUint32LE` in the source
(`value & 0xff`, `(value >> 8) & 0xff`, ...; JS 32-bit semantics are the
residues modulo 2^32). -/
def writeUint32LE (value : Nat) : Bytes :=
  let w := value % 2 ^ 32
  [w % 256, w / 256 % 256, w / 65536 % 256, w / 16777216 % 256]

/-- Binary serialization of one chunk: an opcode chunk is its opcode byte, a
data chunk is the minimal push encoding (`writeOpCode` / `writeBin` in the
SDK, which the code's data-hash rebuild loop calls chunk by chunk). -/
def chunkToBinary (c : Chunk) : Bytes :=
  match c.data with
  | none => [c.op]
  | some d =>
    if d.length ≤ 75 then d.length :: d
    else if d.length ≤ 255 then 76 :: d.length :: d
    else if d.length ≤ 65535 then 77 :: d.length % 256 :: d.length / 256 :: d
    else 78 :: writeUint32LE d.length ++ d

/-- `script.toBinary()`: concatenation of the chunk serializations. -/
def scriptToBinary (s : Script) : Bytes := (s.map chunkToBinary).flatten

/-- `Script.fromBinary` (the SDK parser used on `OP_RETURN` payloads): reads
direct pushes (1–75), `OP_PUSHDATA1/2/4`, else an opcode chunk; a truncated
read throws, modelled as `none`. -/
def scriptFromBinary : Bytes → Option Script
  | [] => some []
  | b :: rest =>
    if _h1 : 1 ≤ b ∧ b ≤ 75 then
      if rest.length < b then none
      else (scriptFromBinary (rest.drop b)).map (⟨b, some (rest.take b)⟩ :: ·)
    else if b = 76 then
      match rest with
      | [] => none
      | n :: rest2 =>
        if rest2.length < n then none
        else (scriptFromBinary (rest2.drop n)).map (⟨76, some (rest2.take n)⟩ :: ·)
    else if b = 77 then
      match rest with
      | n0 :: n1 :: rest2 =>
        let n := n0 + 256 * n1
        if rest2.length < n then none
        else (scriptFromBinary (rest2.drop n)).map (⟨77, some (rest2.take n)⟩ :: ·)
      | _ => none
    else if b = 78 then
      match rest with
      | n0 :: n1 :: n2 :: n3 :: rest2 =>
        let n := n0 + 256 * n1 + 65536 * n2 + 16777216 * n3
        if rest2.length < n then none
        else (scriptFromBinary (rest2.drop n)).map (⟨78, some (rest2.take n)⟩ :: ·)
      | _ => none
    else
      (scriptFromBinary rest).map (⟨b, none⟩ :: ·)
termination_by bs => bs.length
decreasing_by
  all_goals simp_all [List.length_drop]
  all_goals omega

/-- `chunk.data && toUTF8(chunk.data) === SIGMA_PREFIX`: the chunk is a data
push of exactly the marker bytes. -/
def isMarker (c : Chunk) : Bool := c.data = some sigmaMarkerBytes

/-- `chunk.op === OP.OP_RETURN && chunk.data && chunk.data.length > 0`: the
guard of the nested (OP_RETURN-embedded) branch of the scanners. -/
def isOpReturnPayload (c : Chunk) : Bool :=
  c.op = opRETURN && (match c.data with | some d => !d.isEmpty | none => false)

/-- A parsed signature record (`Sig` in the source).  `algorithm`, `address`
are the UTF-8 bytes of the corresponding fields; `signature` is the raw
signature bytes (the source stores their base64 text, an injective
re-encoding); `vin` is `Number.parseInt` of the field's decimal text
(`none` models `NaN`). -/
structure SigRec where
  algorithm : Bytes
  address : Bytes
  signature : Bytes
  vin : Option Int
  targetVout : Nat
deriving Repr, DecidableEq, Inhabited

/-- `Number.parseInt(text, 10)`: optional sign, then a maximal run of decimal
digits; no digit at all yields `NaN` (`none`).  (Leading whitespace and
trailing garbage handling beyond the digit run are irrelevant to the
byte strings this library produces.) -/
def jsParseInt (b : Bytes) : Option Int :=
  let digits : Bytes → Option Nat := fun ds =>
    let run := ds.takeWhile (fun d => 48 ≤ d && d ≤ 57)
    if run.isEmpty then none
    else some (run.foldl (fun acc d => acc * 10 + (d - 48)) 0)
  match b with
  | 45 :: rest => (digits rest).map (fun n => -(n : Int))
  | 43 :: rest => (digits rest).map (fun n => (n : Int))
  | _ => (digits b).map (fun n => (n : Int))

/-- Decimal ASCII bytes of an integer (`vin.toString()` then UTF-8 bytes). -/
def intDecBytes (v : Int) : Bytes :=
  let natBytes : Nat → Bytes := fun n => (Nat.toDigits 10 n).map Char.toNat
  if v < 0 then 45 :: natBytes v.natAbs else natBytes v.natAbs

/-- The inner scan of `parseSigmaInstances` over an `OP_RETURN` payload
script: same five-field windows, no further nesting. -/
def parseInner (targetVout : Nat) : Script → List SigRec
  | [] => []
  | c :: a :: b :: s :: v :: rest2 =>
    if isMarker c then
      match a.data, b.data, s.data, v.data with
      | some ad, some bd, some sd, some vd =>
        ⟨ad, bd, sd, jsParseInt vd, targetVout⟩ :: parseInner targetVout rest2
      | _, _, _, _ => parseInner targetVout (a :: b :: s :: v :: rest2)
    else parseInner targetVout (a :: b :: s :: v :: rest2)
  | _ :: rest => parseInner targetVout rest

/-- `parseSigmaInstances(script, targetVout)`: scan the chunks; a marker chunk
with a complete, all-data five-field window yields an instance and the scan
skips the consumed fields; otherwise the scan moves on one chunk.  An
`OP_RETURN` chunk with a non-empty payload is parsed as a nested script and
scanned with `parseInner` (a parse failure is caught and skipped). -/
def parseSigmaInstances (targetVout : Nat) : Script → List SigRec
  | [] => []
  | c :: a :: b :: s :: v :: rest2 =>
    if isMarker c then
      match a.data, b.data, s.data, v.data with
      | some ad, some bd, some sd, some vd =>
        ⟨ad, bd, sd, jsParseInt vd, targetVout⟩ :: parseSigmaInstances targetVout rest2
      | _, _, _, _ => parseSigmaInstances targetVout (a :: b :: s :: v :: rest2)
    else if isOpReturnPayload c then
      match scriptFromBinary (c.data.getD []) with
      | some inner =>
        parseInner targetVout inner ++ parseSigmaInstances targetVout (a :: b :: s :: v :: rest2)
      | none => parseSigmaInstances targetVout (a :: b :: s :: v :: rest2)
    else parseSigmaInstances targetVout (a :: b :: s :: v :: rest2)
  | c :: rest =>
    if isOpReturnPayload c ∧ ¬ isMarker c then
      match scriptFromBinary (c.data.getD []) with
      | some inner => parseInner targetVout inner ++ parseSigmaInstances targetVout rest
      | none => parseSigmaInstances targetVout rest
    else parseSigmaInstances targetVout rest

/-- `countSigmaInstances(script)` = `parseSigmaInstances(script, 0).length`. -/
def countSigmaInstances (s : Script) : Nat := (parseSigmaInstances 0 s).length

/-- Number of marker occurrences an `OP_RETURN` payload contributes to the
position/data-hash scan (every inner marker chunk, no window validation). -/
def innerMarkerCount (c : Chunk) : Nat :=
  if isOpReturnPayload c then
    match scriptFromBinary (c.data.getD []) with
    | some inner => (inner.filter isMarker).length
    | none => 0
  else 0

/-- Result of the occurrence scan shared by `findSigmaPosition` and
`getDataHash`: the selected occurrence is a top-level marker chunk at index
`i` (`std`), or sits inside the `OP_RETURN` payload chunk at index `i`
(`nested`), or was not found (`notFound` carries the total number of
occurrences seen). -/
inductive ScanRes where
  | std (i : Nat)
  | nested (i : Nat)
  | notFound (occ : Nat)
deriving Repr, DecidableEq

/-- The occurrence scan of `findSigmaPosition` and `getDataHash`: walk the
chunks with a running index `i` and occurrence counter `occ`; a top-level
marker is one occurrence; an `OP_RETURN` payload contributes one occurrence
per inner marker chunk (all reported at the outer index); the scan stops at
occurrence number `k`. -/
def scanSigma (k : Nat) : Script → Nat → Nat → ScanRes
  | [], _, occ => .notFound occ
  | c :: rest, i, occ =>
    if isMarker c then
      if occ = k then .std i else scanSigma k rest (i + 1) (occ + 1)
    else
      let m := innerMarkerCount c
      if occ ≤ k ∧ k < occ + m then .nested i
      else scanSigma k rest (i + 1) (occ + m)

/-- Total number of occurrences the scan counts in a script. -/
def occTotal (s : Script) : Nat :=
  (s.map (fun c => if isMarker c then 1 else innerMarkerCount c)).sum

/-- `findSigmaPosition(script, instanceIndex)`: chunk index of the selected
occurrence, `-1` if absent. -/
def findSigmaPosition (s : Script) (instanceIndex : Nat) : Int :=
  match scanSigma instanceIndex s 0 0 with
  | .std i => (i : Int)
  | .nested i => (i : Int)
  | .notFound _ => -1

/-- A transaction input.  `sourceTXID` holds the decoded bytes of the SDK's
hex txid string (`hexToBytes` in the source is the injective boundary
re-encoding); `none` models an absent field, and the empty byte list models
the empty string, which is falsy in the `txIn?.sourceTXID` guard. -/
structure TxInput where
  sourceTXID : Option Bytes
  sourceOutputIndex : Nat
deriving Repr, DecidableEq, Inhabited

/-- A transaction output: satoshis plus locking script. -/
structure TxOutput where
  satoshis : Nat
  lockingScript : Script
deriving Repr, DecidableEq, Inhabited

/-- A transaction, as the fields the library touches. -/
structure Transaction where
  version : Nat
  inputs : List TxInput
  outputs : List TxOutput
deriving Repr, DecidableEq, Inhabited

/-- The `Sigma` signing context: its private mutable fields.  `inputHash` and
`dataHash` are the cached sub-hashes (`null` before `setHashes`);
`cachedSig` is `_sig`. -/
structure SigmaState where
  transaction : Transaction
  targetVout : Nat
  sigmaInstance : Nat
  refVin : Int
  inputHash : Option Bytes
  dataHash : Option Bytes
  cachedSig : Option SigRec
deriving Repr, DecidableEq, Inhabited

/-- `vin = this._refVin === -1 ? this._targetVout : this._refVin`. -/
def resolvedVin (st : SigmaState) : Int :=
  if st.refVin = -1 then (st.targetVout : Int) else st.refVin

/-- `this._transaction.inputs[vin]` (a negative or out-of-range index is
`undefined`). -/
def inputAt (tx : Transaction) (vin : Int) : Option TxInput :=
  if 0 ≤ vin then tx.inputs[vin.toNat]? else none

section HashEngine

-- SHA-256 is an external primitive (spec §1); every use of `Hash.sha256`
-- goes through this parameter.
variable (sha256 : Bytes → Bytes)

/-- `_getInputHashByVin`: hash the 36-byte outpoint (txid bytes ++ 4-byte LE
output index) when the input exists and its txid is truthy, else hash
32 zero bytes. -/
def getInputHashByVin (tx : Transaction) (vin : Int) : Bytes :=
  match inputAt tx vin with
  | some txIn =>
    match txIn.sourceTXID with
    | some t =>
      if t ≠ [] then sha256 (t ++ writeUint32LE txIn.sourceOutputIndex)
      else sha256 (List.replicate 32 0)
    | none => sha256 (List.replicate 32 0)
  | none => sha256 (List.replicate 32 0)

/-- `getInputHash()`: resolve the vin and delegate. -/
def getInputHash (st : SigmaState) : Bytes :=
  getInputHashByVin sha256 st.transaction (resolvedVin st)

/-- `getDataHash()`: run the occurrence scan for `_sigmaInstance` on the
target output's chunks.  A top-level find at chunk `i` hashes the rebuilt
serialization of `chunks.slice(0, i - 1)` (JS slice: at `i = 0` this is
`slice(0, -1)`, all chunks but the last); a nested find at outer chunk `i`
hashes `chunks.slice(0, i)`; no find hashes the whole script.  Accessing a
missing target output throws. -/
def getDataHashE (st : SigmaState) : Except String Bytes :=
  match st.transaction.outputs[st.targetVout]? with
  | none => .error "no target output"
  | some o =>
    let chunks := o.lockingScript
    match scanSigma st.sigmaInstance chunks 0 0 with
    | .std i =>
      let dataChunks := if i = 0 then chunks.dropLast else chunks.take (i - 1)
      .ok (sha256 (scriptToBinary dataChunks))
    | .nested i => .ok (sha256 (scriptToBinary (chunks.take i)))
    | .notFound _ => .ok (sha256 (scriptToBinary chunks))

/-- `getMessageHash()`: SHA-256 of the byte concatenation of the two cached
sub-hashes; throws when either cache is unset (`null`; a JS array, even
empty, is truthy). -/
def getMessageHash (st : SigmaState) : Except String Bytes :=
  match st.inputHash, st.dataHash with
  | some ih, some dh => .ok (sha256 (ih ++ dh))
  | _, _ => .error "Input hash and data hash must be set"

/-- `setHashes()`: recompute and store both caches. -/
def setHashes (st : SigmaState) : Except String SigmaState :=
  match getDataHashE sha256 st with
  | .error e => .error e
  | .ok dh =>
    .ok { st with inputHash := some (getInputHash sha256 st), dataHash := some dh }

end HashEngine

/-- `setTargetVout(v)`: store the new target; the caches are not touched. -/
def setTargetVout (st : SigmaState) (targetVout : Nat) : SigmaState :=
  { st with targetVout := targetVout }

/-- `get sig`: parse the target output's instances; when the output is absent
or no instance parses, fall back to the cached `_sig`; otherwise select
`instances[_sigmaInstance] ?? null`. -/
def sigGet (st : SigmaState) : Option SigRec :=
  match st.transaction.outputs[st.targetVout]? with
  | none => st.cachedSig
  | some o =>
    let instances := parseSigmaInstances st.targetVout o.lockingScript
    if instances.isEmpty then st.cachedSig
    else instances[st.sigmaInstance]?

/-- `getSigInstanceCount()`: 0 without a target script, else the parsed
instance count. -/
def getSigInstanceCount (st : SigmaState) : Nat :=
  match st.transaction.outputs[st.targetVout]? with
  | none => 0
  | some o => countSigmaInstances o.lockingScript

/-- `getSigInstancePosition()`: -1 without a target script, else
`findSigmaPosition` for the selected instance. -/
def getSigInstancePosition (st : SigmaState) : Int :=
  match st.transaction.outputs[st.targetVout]? with
  | none => -1
  | some o => findSigmaPosition o.lockingScript st.sigmaInstance

/-- `setSigmaInstance(k)`: store the new instance index, then `setHashes()`. -/
def setSigmaInstance (sha256 : Bytes → Bytes) (st : SigmaState) (k : Nat) :
    Except String SigmaState :=
  setHashes sha256 { st with sigmaInstance := k }

/-- The constructor `new Sigma(tx, targetVout, sigmaInstance, refVin)`: store
the fields, set `_sig = this.sig` (evaluated while `_sig` is still unset),
then `setHashes()`. -/
def mkSigma (sha256 : Bytes → Bytes) (tx : Transaction) (targetVout : Nat)
    (sigmaInstance : Nat) (refVin : Int) : Except String SigmaState :=
  setHashes sha256
    { transaction := tx, targetVout := targetVout, sigmaInstance := sigmaInstance,
      refVin := refVin, inputHash := none, dataHash := none,
      cachedSig := sigGet
        { transaction := tx, targetVout := targetVout, sigmaInstance := sigmaInstance,
          refVin := refVin, inputHash := none, dataHash := none, cachedSig := none } }

/-- `existingAsm?.split(" ").includes("OP_RETURN")`: the script has an
`OP_RETURN` opcode chunk (data chunks print as hex tokens in ASM). -/
def containsOpReturn (s : Script) : Bool :=
  s.any (fun c => c.data = none && c.op = opRETURN)

/-- The target output's locking script (`targetTxOut?.lockingScript`),
defaulting to the empty script when the output is absent (theorems keep the
target in range, where the default is never used). -/
def targetScript (st : SigmaState) : Script :=
  ((st.transaction.outputs[st.targetVout]?).map (·.lockingScript)).getD []

/-- `_applySignature(signedAsm, sig)`:

1. store the new record in `_sig`;
2. pick the separator: the 1-byte pipe push `"7c"` if the existing script
   contains `OP_RETURN`, else `OP_RETURN` itself;
3. if `this.sig` is non-null and `_sigmaInstance === getSigInstanceCount()`
   and `getSigInstancePosition()` finds a chunk index, splice the five chunks
   there with the new instance's five chunks;
4. unconditionally append `separator + signedAsm` after the (possibly
   spliced) existing content;
5. rebuild the transaction as a fresh copy whose target output carries the
   new script (same satoshis), and commit it as the context's transaction.

`signedChunks` are the five chunks of `signedAsm`; the caches are not
recomputed. -/
def applySignature (signedChunks : List Chunk) (sig : SigRec) (st : SigmaState) :
    SigmaState :=
  let st1 := { st with cachedSig := some sig }
  let existing := targetScript st1
  let separator := if containsOpReturn existing then pipeChunk else opReturnChunk
  let existingSig := sigGet st1
  let pos := getSigInstancePosition st1
  let spliced :=
    if existingSig.isSome ∧ st1.sigmaInstance = getSigInstanceCount st1 ∧ pos ≠ -1 then
      (existing.take pos.toNat) ++ signedChunks ++ (existing.drop (pos.toNat + 5))
    else existing
  let newScript := spliced ++ [separator] ++ signedChunks
  let sats := ((st1.transaction.outputs[st1.targetVout]?).map (·.satoshis)).getD 0
  let newTx : Transaction :=
    { version := st1.transaction.version,
      inputs := st1.transaction.inputs,
      outputs := st1.transaction.outputs.set st1.targetVout ⟨sats, newScript⟩ }
  { st1 with transaction := newTx }

/-- The five chunks of the BSM `signedAsm`
(`sigmaHex algoHex addrHex sigCompactHex vinHex`), each an ASM hex token,
hence a data push. -/
def signedChunksBSM (address sigBytes : Bytes) (vin : Int) : List Chunk :=
  [mkPush sigmaMarkerBytes, mkPush algoBSMBytes, mkPush address,
   mkPush sigBytes, mkPush (intDecBytes vin)]

/-- `_sign(signature, address, recovery)` composed with the surrounding
`sign()` BSM path: compute the message hash (errors propagate), resolve the
vin, build the five-field instance and its record, and apply.  The ECDSA
signing itself and the recovery computation are external; their results
enter as `address` (the signer's address bytes) and `sigBytes` (the compact
signature bytes). -/
def signBSM (sha256 : Bytes → Bytes) (address sigBytes : Bytes) (st : SigmaState) :
    Except String SigmaState := do
  let _message ← getMessageHash sha256 st
  let vin := resolvedVin st
  let sig : SigRec :=
    { algorithm := algoBSMBytes, address := address, signature := sigBytes,
      vin := some vin, targetVout := st.targetVout }
  pure (applySignature (signedChunksBSM address sigBytes vin) sig st)

section Verification

-- The ECDSA primitives are external collaborators: public-key recovery
-- (`signature.RecoverPublicKey`, throwing modelled as `none`), BSM
-- signature validation (`BSM.verify`), address derivation
-- (`publicKey.toAddress()`) and the magic-prefixed digest (`magicHash`).
-- Public keys are opaque (`Nat`).
variable (recoverPublicKey : Bytes → Nat → Bytes → Option Nat)
variable (bsmVerify : Bytes → Bytes → Nat → Bool)
variable (pubkeyToAddress : Nat → Bytes)
variable (magicHash : Bytes → Bytes)

/-- One iteration of `deduceRecovery`'s loop: recover a candidate key for
`recovery`, check the signature validates against it and its derived
address matches; any exception (failed recovery) counts as failure. -/
def tryRecovery (signature message address : Bytes) (recovery : Nat) : Bool :=
  match recoverPublicKey signature recovery (magicHash message) with
  | some publicKey =>
    bsmVerify message signature publicKey && pubkeyToAddress publicKey = address
  | none => false

/-- `deduceRecovery(signature, message, address)`: the first recovery id in
0..3 that passes `tryRecovery`, else -1. -/
def deduceRecovery (signature message address : Bytes) : Int :=
  if tryRecovery recoverPublicKey bsmVerify pubkeyToAddress magicHash
      signature message address 0 then 0
  else if tryRecovery recoverPublicKey bsmVerify pubkeyToAddress magicHash
      signature message address 1 then 1
  else if tryRecovery recoverPublicKey bsmVerify pubkeyToAddress magicHash
      signature message address 2 then 2
  else if tryRecovery recoverPublicKey bsmVerify pubkeyToAddress magicHash
      signature message address 3 then 3
  else -1

/-- `verify()`: throw when no record is selected; recompute the message hash
(a thrown hash error propagates); for a BRC-77 record delegate to the
external `SignedMessage.verify` (`brc77Verify` plus the optional recipient
key); otherwise (the BSM path) brute-force the recovery id and return
whether one was found. -/
def verifyE (sha256 : Bytes → Bytes) (brc77Verify : Bytes → Bytes → Option Nat → Bool)
    (recipientKey : Option Nat) (st : SigmaState) : Except String Bool := do
  match sigGet st with
  | none => .error "No signature data provided"
  | some s =>
    let msgHash ← getMessageHash sha256 st
    if s.algorithm = algoBRC77Bytes then
      pure (brc77Verify msgHash s.signature recipientKey)
    else
      pure (deduceRecovery recoverPublicKey bsmVerify pubkeyToAddress magicHash
        s.signature msgHash s.address ≠ -1)

end Verification

/-! ## Concrete instances

Closed states used by the concrete counterexamples and witnesses below.
`hashId` instantiates the external-hash parameter with the identity function
(any instantiation refutes a universally quantified statement about the
hash parameter). -/

/-- Identity instantiation of the hash parameter. -/
def hashId : Bytes → Bytes := fun b => b

/-- A transaction whose only output's script is a lone protocol marker (a
truncated instance: the five-field window runs past the end). -/
def loneMarkerTx : Transaction := ⟨1, [], [⟨0, [mkPush sigmaMarkerBytes]⟩]⟩

/-- The context built over `loneMarkerTx` (targetVout 0, sigmaInstance 0,
refVin 0). -/
def loneMarkerSt : SigmaState :=
  match mkSigma hashId loneMarkerTx 0 0 0 with
  | .ok s => s
  | .error _ => default

/-- `loneMarkerSt` after a BSM sign with address bytes `[2]` and signature
bytes `[1]`. -/
def loneMarkerSigned : SigmaState :=
  match signBSM hashId [2] [1] loneMarkerSt with
  | .ok s => s
  | .error _ => default

/-- The signature record that sign produces over `loneMarkerSt` (and over
`plainTx`, which shares address/signature/vin/targetVout). -/
def newRec : SigRec := ⟨algoBSMBytes, [2], [1], some 0, 0⟩

/-- A transaction whose only output's script is a single full instance whose
marker is the script's first chunk (no separator before it). -/
def markerFirstSt : SigmaState :=
  ⟨⟨1, [], [⟨0, signedChunksBSM [2] [1] 0⟩]⟩, 0, 0, 0, none, none, none⟩

/-- A marker-free one-output transaction. -/
def plainTx : Transaction := ⟨1, [], [⟨0, [mkPush [1, 2, 3]]⟩]⟩

/-- Context over `plainTx` selecting instance index 1 (beyond every
occurrence the signed script will have at that index). -/
def overIndexSt : SigmaState :=
  match mkSigma hashId plainTx 0 1 0 with
  | .ok s => s
  | .error _ => default

/-- `overIndexSt` after a BSM sign. -/
def overIndexSigned : SigmaState :=
  match signBSM hashId [2] [1] overIndexSt with
  | .ok s => s
  | .error _ => default

/-- A fresh context over `overIndexSigned`'s transaction with the same
targetVout 0, sigmaInstance 1, refVin 0. -/
def overIndexFresh : SigmaState :=
  match mkSigma hashId overIndexSigned.transaction 0 1 0 with
  | .ok s => s
  | .error _ => default

/-- A transaction with two outputs carrying different scripts. -/
def twoOutTx : Transaction := ⟨1, [], [⟨0, [mkPush [1]]⟩, ⟨0, [mkPush [2, 2]]⟩]⟩

/-- Context over `twoOutTx` targeting output 0. -/
def twoOutSt : SigmaState :=
  match mkSigma hashId twoOutTx 0 0 0 with
  | .ok s => s
  | .error _ => default

/-- Whether a five-field window fails `parseSigmaInstances`' validation:
fewer than four chunks follow the marker, or some field chunk carries no
`data`. -/
def windowInvalid : List Chunk → Bool
  | a :: b :: s :: v :: _ => a.data.isNone || b.data.isNone || s.data.isNone || v.data.isNone
  | _ => true

/-- Context over `plainTx` at instance 0. -/
def plainSt : SigmaState :=
  match mkSigma hashId plainTx 0 0 0 with
  | .ok s => s
  | .error _ => default

/-- `plainSt` after a BSM sign. -/
def plainSigned : SigmaState :=
  match signBSM hashId [2] [1] plainSt with
  | .ok s => s
  | .error _ => default

/-- Concrete context for the C3 witness: both caches set to 32-byte values. -/
def c3St : SigmaState :=
  ⟨⟨1, [], []⟩, 0, 0, 0, some (List.replicate 32 0), some (List.replicate 32 1), none⟩

/-- Concrete context for the C4 witness: `refVin = -1`, one input with a
32-byte txid. -/
def c4St : SigmaState :=
  ⟨⟨1, [⟨some (List.replicate 32 7), 5⟩], []⟩, 0, 0, -1, none, none, none⟩

/-- A script whose instance is preceded by one data chunk and an `OP_RETURN`
separator. -/
def sepInstScript : Script := mkPush [9] :: opReturnChunk :: signedChunksBSM [2] [1] 0

/-- Context over a one-output transaction carrying `sepInstScript`. -/
def sepInstSt : SigmaState :=
  ⟨⟨1, [], [⟨0, sepInstScript⟩]⟩, 0, 0, 0, none, none, none⟩

/-- Test instantiation of public-key recovery: succeeds only at recovery
id 2, yielding key 7. -/
def recovTest : Bytes → Nat → Bytes → Option Nat :=
  fun _ r _ => if r = 2 then some 7 else none

/-- Test instantiation of `BSM.verify`: always valid. -/
def bsmVerifyTest : Bytes → Bytes → Nat → Bool := fun _ _ _ => true

/-- Test instantiation of address derivation: every key owns address `[9]`. -/
def toAddrTest : Nat → Bytes := fun _ => [9]

/-- Test instantiation of the magic-prefixed digest. -/
def magicTest : Bytes → Bytes := fun b => b

/-- Test instantiation of `SignedMessage.verify`. -/
def brc77Test : Bytes → Bytes → Option Nat → Bool := fun _ _ _ => false

/-- A context whose transaction has no outputs, so `sig` falls back to the
cached BSM record with address `[9]` and signature bytes `[5]`. -/
def bsmRecSt : SigmaState :=
  ⟨⟨1, [], []⟩, 0, 0, 0, some [], some [], some ⟨algoBSMBytes, [9], [5], some 0, 0⟩⟩

instance {α β : Type} [DecidableEq α] [DecidableEq β] : DecidableEq (Except α β) :=
  fun a b =>
  match a, b with
  | .ok x, .ok y => if h : x = y then .isTrue (by rw [h]) else .isFalse (by simp [h])
  | .error x, .error y => if h : x = y then .isTrue (by rw [h]) else .isFalse (by simp [h])
  | .ok _, .error _ => .isFalse (by simp)
  | .error _, .ok _ => .isFalse (by simp)

/-! ## Theorems -/

/-- A `std` scan result points at a top-level marker chunk within bounds. -/
theorem scanSigma_std_spec (k : Nat) :
    ∀ (s : Script) (i0 occ j : Nat), scanSigma k s i0 occ = .std j →
      i0 ≤ j ∧ j - i0 < s.length ∧
      ∃ c, s[j - i0]? = some c ∧ isMarker c = true := by
  intro s
  induction s with
  | nil => intro i0 occ j h; simp [scanSigma] at h
  | cons c rest ih =>
    intro i0 occ j h
    rw [scanSigma] at h
    by_cases hm : isMarker c
    · rw [if_pos hm] at h
      by_cases ho : occ = k
      · rw [if_pos ho] at h
        cases h
        exact ⟨le_refl _, by simp, c, by simp, hm⟩
      · rw [if_neg ho] at h
        obtain ⟨h1, h2, c2, h3, h4⟩ := ih (i0 + 1) (occ + 1) j h
        have hij : j - i0 = (j - (i0 + 1)) + 1 := by omega
        refine ⟨by omega, by simp; omega, c2, ?_, h4⟩
        rw [hij, List.getElem?_cons_succ]
        exact h3
    · rw [if_neg hm] at h
      by_cases hn : occ ≤ k ∧ k < occ + innerMarkerCount c
      · rw [if_pos hn] at h; cases h
      · rw [if_neg hn] at h
        obtain ⟨h1, h2, c2, h3, h4⟩ := ih (i0 + 1) (occ + innerMarkerCount c) j h
        have hij : j - i0 = (j - (i0 + 1)) + 1 := by omega
        refine ⟨by omega, by simp; omega, c2, ?_, h4⟩
        rw [hij, List.getElem?_cons_succ]
        exact h3

/-- A `nested` scan result is within bounds. -/
theorem scanSigma_nested_spec (k : Nat) :
    ∀ (s : Script) (i0 occ j : Nat), scanSigma k s i0 occ = .nested j →
      i0 ≤ j ∧ j - i0 < s.length := by
  intro s
  induction s with
  | nil => intro i0 occ j h; simp [scanSigma] at h
  | cons c rest ih =>
    intro i0 occ j h
    rw [scanSigma] at h
    by_cases hm : isMarker c
    · rw [if_pos hm] at h
      by_cases ho : occ = k
      · rw [if_pos ho] at h; cases h
      · rw [if_neg ho] at h
        obtain ⟨h1, h2⟩ := ih (i0 + 1) (occ + 1) j h
        exact ⟨by omega, by simp; omega⟩
    · rw [if_neg hm] at h
      by_cases hn : occ ≤ k ∧ k < occ + innerMarkerCount c
      · rw [if_pos hn] at h
        cases h
        exact ⟨le_refl _, by simp⟩
      · rw [if_neg hn] at h
        obtain ⟨h1, h2⟩ := ih (i0 + 1) (occ + innerMarkerCount c) j h
        exact ⟨by omega, by simp; omega⟩

/-- A `notFound` scan result carries the occurrence total. -/
theorem scanSigma_notFound_spec (k : Nat) :
    ∀ (s : Script) (i0 occ m : Nat), scanSigma k s i0 occ = .notFound m →
      m = occ + occTotal s := by
  intro s
  induction s with
  | nil => intro i0 occ m h; rw [scanSigma] at h; cases h; simp [occTotal]
  | cons c rest ih =>
    intro i0 occ m h
    rw [scanSigma] at h
    by_cases hm : isMarker c
    · rw [if_pos hm] at h
      by_cases ho : occ = k
      · rw [if_pos ho] at h; cases h
      · rw [if_neg ho] at h
        have := ih (i0 + 1) (occ + 1) m h
        simp [occTotal, hm] at this ⊢
        omega
    · rw [if_neg hm] at h
      by_cases hn : occ ≤ k ∧ k < occ + innerMarkerCount c
      · rw [if_pos hn] at h; cases h
      · rw [if_neg hn] at h
        have := ih (i0 + 1) (occ + innerMarkerCount c) m h
        simp [occTotal, hm] at this ⊢
        omega

/-- The scan of a concatenation runs the left part and, when nothing is
found there, continues through the right part with the accumulated index
and occurrence count. -/
theorem scanSigma_append (k : Nat) :
    ∀ (xs ys : Script) (i0 occ : Nat),
      scanSigma k (xs ++ ys) i0 occ =
        match scanSigma k xs i0 occ with
        | .notFound occ2 => scanSigma k ys (i0 + xs.length) occ2
        | r => r := by
  intro xs
  induction xs with
  | nil => intro ys i0 occ; simp [scanSigma]
  | cons c rest ih =>
    intro ys i0 occ
    rw [List.cons_append, scanSigma, scanSigma]
    by_cases hm : isMarker c
    · rw [if_pos hm, if_pos hm]
      by_cases ho : occ = k
      · rw [if_pos ho, if_pos ho]
      · rw [if_neg ho, if_neg ho, ih]
        simp only [List.length_cons]
        have : i0 + 1 + rest.length = i0 + (rest.length + 1) := by omega
        rw [this]
    · rw [if_neg hm, if_neg hm]
      by_cases hn : occ ≤ k ∧ k < occ + innerMarkerCount c
      · rw [if_pos hn, if_pos hn]
      · rw [if_neg hn, if_neg hn, ih]
        simp only [List.length_cons]
        have : i0 + 1 + rest.length = i0 + (rest.length + 1) := by omega
        rw [this]

/-- When the selected output parses to no instances, `sig` falls back to the
cached record. -/
theorem sigGet_parse_nil (st : SigmaState) (o : TxOutput)
    (ho : st.transaction.outputs[st.targetVout]? = some o)
    (hp : parseSigmaInstances st.targetVout o.lockingScript = []) :
    sigGet st = st.cachedSig := by
  rw [sigGet, ho]
  simp [hp]

/-- **C3** — For every context in which both cached sub-hashes are set,
`getMessageHash` returns SHA-256 of the byte-level concatenation of
`inputHash` followed by `dataHash` (64 bytes when each sub-hash is the
32-byte SHA-256 output); if either cached sub-hash is unset, it fails with
an error rather than returning a value. -/
theorem c3_messageHash (sha256 : Bytes → Bytes) (st : SigmaState) :
    (∀ ih dh, st.inputHash = some ih → st.dataHash = some dh →
      getMessageHash sha256 st = .ok (sha256 (ih ++ dh)) ∧
      (ih.length = 32 → dh.length = 32 → (ih ++ dh).length = 64)) ∧
    (st.inputHash = none ∨ st.dataHash = none →
      getMessageHash sha256 st = .error "Input hash and data hash must be set") := by
  constructor
  · intro ih dh hi hd
    refine ⟨by simp [getMessageHash, hi, hd], fun h1 h2 => by simp [h1, h2]⟩
  · intro h
    rcases h with h | h
    · cases hd : st.dataHash <;> simp [getMessageHash, h, hd]
    · cases hi : st.inputHash <;> simp [getMessageHash, h, hi]

/-- Witness for C3 at a concrete context with both caches set to 32-byte
values. -/
theorem c3_messageHash_witness :
    getMessageHash hashId c3St = .ok (hashId (List.replicate 32 0 ++ List.replicate 32 1)) ∧
    (List.replicate 32 0 ++ List.replicate 32 1).length = 64 :=
  ⟨((c3_messageHash hashId c3St).1 (List.replicate 32 0) (List.replicate 32 1) rfl rfl).1,
   ((c3_messageHash hashId c3St).1 (List.replicate 32 0) (List.replicate 32 1) rfl rfl).2
     (by decide) (by decide)⟩

/-- **C4** — `getInputHash` resolves the vin to `targetVout` when `refVin` is
the sentinel -1 and to `refVin` otherwise; when the input at that index
exists with a known (truthy) previous txid, it hashes the outpoint
`txid ++ uint32LE(sourceOutputIndex)` (36 bytes for a 32-byte txid); when
the input is absent or its txid is unknown (absent or the empty, falsy
string), it hashes 32 zero bytes. -/
theorem c4_inputHash (sha256 : Bytes → Bytes) (st : SigmaState) :
    ((st.refVin = -1 → resolvedVin st = st.targetVout) ∧
     (st.refVin ≠ -1 → resolvedVin st = st.refVin)) ∧
    (∀ txIn t, inputAt st.transaction (resolvedVin st) = some txIn →
      txIn.sourceTXID = some t → t ≠ [] →
      getInputHash sha256 st = sha256 (t ++ writeUint32LE txIn.sourceOutputIndex) ∧
      (writeUint32LE txIn.sourceOutputIndex).length = 4 ∧
      (t.length = 32 → (t ++ writeUint32LE txIn.sourceOutputIndex).length = 36)) ∧
    (∀ txIn, inputAt st.transaction (resolvedVin st) = some txIn →
      txIn.sourceTXID = none ∨ txIn.sourceTXID = some [] →
      getInputHash sha256 st = sha256 (List.replicate 32 0)) ∧
    (inputAt st.transaction (resolvedVin st) = none →
      getInputHash sha256 st = sha256 (List.replicate 32 0)) := by
  refine ⟨⟨fun h => by simp [resolvedVin, h], fun h => by simp [resolvedVin, h]⟩, ?_, ?_, ?_⟩
  · intro txIn t hin ht hne
    refine ⟨by simp [getInputHash, getInputHashByVin, hin, ht, hne], by simp [writeUint32LE], ?_⟩
    intro h32
    simp [writeUint32LE, h32]
  · intro txIn hin ht
    rcases ht with ht | ht <;> simp [getInputHash, getInputHashByVin, hin, ht]
  · intro hin
    simp [getInputHash, getInputHashByVin, hin]

/-- Witness for C4 at a concrete context: refVin -1 resolves to the target,
and the single input's 32-byte txid produces a 36-byte outpoint hash. -/
theorem c4_inputHash_witness :
    resolvedVin c4St = 0 ∧
    getInputHash hashId c4St = hashId (List.replicate 32 7 ++ writeUint32LE 5) ∧
    (List.replicate 32 7 ++ writeUint32LE 5).length = 36 := by
  refine ⟨(c4_inputHash hashId c4St).1.1 rfl, ?_, ?_⟩
  · exact ((c4_inputHash hashId c4St).2.1 ⟨some (List.replicate 32 7), 5⟩
      (List.replicate 32 7) (by decide) rfl (by decide)).1
  · exact ((c4_inputHash hashId c4St).2.1 ⟨some (List.replicate 32 7), 5⟩
      (List.replicate 32 7) (by decide) rfl (by decide)).2.2 (by decide)

/-- **C7** — A marker whose five-field window runs past the end of the script
or contains a field chunk without data is discarded without error: the
scanners of `parseSigmaInstances` (outer and inner) skip it, adding
nothing, and `countSigmaInstances` (the parse-result length) does not
count it. -/
theorem c7_malformed :
    (∀ tv c rest, isMarker c = true → windowInvalid rest = true →
      parseSigmaInstances tv (c :: rest) = parseSigmaInstances tv rest) ∧
    (∀ tv c rest, isMarker c = true → windowInvalid rest = true →
      parseInner tv (c :: rest) = parseInner tv rest) ∧
    (∀ s, countSigmaInstances s = (parseSigmaInstances 0 s).length) := by
  refine ⟨?_, ?_, fun s => rfl⟩
  · intro tv c rest hm hw
    rcases rest with _ | ⟨a, _ | ⟨b, _ | ⟨s, _ | ⟨v, t⟩⟩⟩⟩
    · simp [parseSigmaInstances, hm]
    · simp [parseSigmaInstances, hm]
    · simp [parseSigmaInstances, hm]
    · simp [parseSigmaInstances, hm]
    · cases ha : a.data <;> cases hb : b.data <;> cases hs : s.data <;> cases hv : v.data <;>
        simp_all [parseSigmaInstances, windowInvalid, hm]
  · intro tv c rest hm hw
    rcases rest with _ | ⟨a, _ | ⟨b, _ | ⟨s, _ | ⟨v, t⟩⟩⟩⟩
    · simp [parseInner]
    · simp [parseInner]
    · simp [parseInner]
    · simp [parseInner]
    · cases ha : a.data <;> cases hb : b.data <;> cases hs : s.data <;> cases hv : v.data <;>
        simp_all [parseInner, windowInvalid, hm]

/-- Witness for C7 at a lone truncated marker and at a window with a
data-less field chunk. -/
theorem c7_malformed_witness :
    parseSigmaInstances 0 [mkPush sigmaMarkerBytes] = parseSigmaInstances 0 [] ∧
    parseInner 0 (mkPush sigmaMarkerBytes :: [opReturnChunk, mkPush [1], mkPush [2], mkPush [3]])
      = parseInner 0 [opReturnChunk, mkPush [1], mkPush [2], mkPush [3]] :=
  ⟨c7_malformed.1 0 _ _ (by decide) (by decide),
   c7_malformed.2.1 0 _ _ (by decide) (by decide)⟩

/-- **C9** — Every successful sign commits a freshly constructed transaction
(the embedding is pure: the prior `Transaction` value is untouched) that
differs from the prior one only at the target output: same version, same
inputs, same length, and every output other than `targetVout` unchanged. -/
theorem c9_frame (sha256 : Bytes → Bytes) (address sigBytes : Bytes)
    (st st' : SigmaState) (h : signBSM sha256 address sigBytes st = .ok st') :
    st'.transaction.version = st.transaction.version ∧
    st'.transaction.inputs = st.transaction.inputs ∧
    st'.transaction.outputs.length = st.transaction.outputs.length ∧
    (∀ j, j ≠ st.targetVout →
      st'.transaction.outputs[j]? = st.transaction.outputs[j]?) := by
  have happ : st' = applySignature
      (signedChunksBSM address sigBytes (resolvedVin st))
      { algorithm := algoBSMBytes, address := address, signature := sigBytes,
        vin := some (resolvedVin st), targetVout := st.targetVout } st := by
    cases hm : getMessageHash sha256 st with
    | error e => rw [signBSM, hm] at h; cases h
    | ok m =>
      rw [signBSM, hm] at h
      simpa using h.symm
  subst happ
  refine ⟨rfl, rfl, by simp [applySignature], ?_⟩
  intro j hj
  simp only [applySignature]
  exact List.getElem?_set_ne (fun hh => hj hh.symm)

/-- Witness for C9: the concrete signed context `plainSigned`. -/
theorem c9_frame_witness :
    plainSigned.transaction.version = plainSt.transaction.version ∧
    plainSigned.transaction.inputs = plainSt.transaction.inputs ∧
    plainSigned.transaction.outputs.length = plainSt.transaction.outputs.length ∧
    (∀ j, j ≠ plainSt.targetVout →
      plainSigned.transaction.outputs[j]? = plainSt.transaction.outputs[j]?) :=
  c9_frame hashId [2] [1] plainSt plainSigned (by decide)

/-- **C10** — When the selected target output's script has no parseable
instance, the `sig` accessor returns the cached record `_sig`: `none` for a
freshly constructed context over such an output, and the record stored by
the most recent sign otherwise — so after re-targeting to an unsigned
output, `sig` (and hence `verify`) operates on a record that is not in that
output's script. -/
theorem c10_sig_fallback :
    (∀ st o, st.transaction.outputs[st.targetVout]? = some o →
      parseSigmaInstances st.targetVout o.lockingScript = [] →
      sigGet st = st.cachedSig) ∧
    (∀ sha256 tx tv si rv st o, mkSigma sha256 tx tv si rv = .ok st →
      tx.outputs[tv]? = some o → parseSigmaInstances tv o.lockingScript = [] →
      st.cachedSig = none) ∧
    (∀ signedChunks sig st v o,
      (applySignature signedChunks sig st).transaction.outputs[v]? = some o →
      parseSigmaInstances v o.lockingScript = [] →
      sigGet (setTargetVout (applySignature signedChunks sig st) v) = some sig) := by
  refine ⟨?_, ?_, ?_⟩
  · intro st o ho hp
    exact sigGet_parse_nil st o ho hp
  · intro sha256 tx tv si rv st o hmk ho hp
    have hsig0 : sigGet ⟨tx, tv, si, rv, none, none, none⟩ = none := by
      simp [sigGet, ho, hp]
    rw [mkSigma] at hmk
    cases hd : getDataHashE sha256
        { transaction := tx, targetVout := tv, sigmaInstance := si, refVin := rv,
          inputHash := none, dataHash := none,
          cachedSig := sigGet ⟨tx, tv, si, rv, none, none, none⟩ } with
    | error e => rw [setHashes, hd] at hmk; cases hmk
    | ok dh =>
      rw [setHashes, hd] at hmk
      simp at hmk
      rw [← hmk]
      exact hsig0
  · intro signedChunks sig st v o ho hp
    have hstep : sigGet (setTargetVout (applySignature signedChunks sig st) v)
        = (setTargetVout (applySignature signedChunks sig st) v).cachedSig :=
      sigGet_parse_nil _ o ho hp
    exact hstep.trans rfl

/-- Witness for C10: signing output 0 of the two-output transaction and then
re-targeting to the unsigned output 1 makes `sig` report the cached record
from the sign. -/
theorem c10_sig_fallback_witness :
    sigGet (setTargetVout (applySignature (signedChunksBSM [2] [1] 0) newRec twoOutSt) 1)
      = some newRec :=
  c10_sig_fallback.2.2 _ newRec twoOutSt 1 ⟨0, [mkPush [2, 2]]⟩ (by decide) (by decide)

/-- `getInputHash` reads only the inputs, `refVin` and `targetVout`. -/
theorem getInputHash_congr (sha256 : Bytes → Bytes) (s1 s2 : SigmaState)
    (h1 : s1.transaction.inputs = s2.transaction.inputs)
    (h2 : s1.refVin = s2.refVin) (h3 : s1.targetVout = s2.targetVout) :
    getInputHash sha256 s1 = getInputHash sha256 s2 := by
  unfold getInputHash getInputHashByVin inputAt resolvedVin
  rw [h1, h2, h3]

/-- `getDataHashE` reads only the outputs, `targetVout` and `sigmaInstance`. -/
theorem getDataHashE_congr (sha256 : Bytes → Bytes) (s1 s2 : SigmaState)
    (h1 : s1.transaction.outputs = s2.transaction.outputs)
    (h2 : s1.targetVout = s2.targetVout) (h3 : s1.sigmaInstance = s2.sigmaInstance) :
    getDataHashE sha256 s1 = getDataHashE sha256 s2 := by
  unfold getDataHashE
  rw [h1, h2, h3]

/-- `getSigInstanceCount` reads only the outputs and `targetVout`. -/
theorem getSigInstanceCount_congr (s1 s2 : SigmaState)
    (h1 : s1.transaction.outputs = s2.transaction.outputs)
    (h2 : s1.targetVout = s2.targetVout) :
    getSigInstanceCount s1 = getSigInstanceCount s2 := by
  unfold getSigInstanceCount
  rw [h1, h2]

/-- Reduction of `getDataHashE` once the target output is known. -/
theorem getDataHashE_some (sha256 : Bytes → Bytes) (st : SigmaState) (o : TxOutput)
    (ho : st.transaction.outputs[st.targetVout]? = some o) :
    getDataHashE sha256 st =
      match scanSigma st.sigmaInstance o.lockingScript 0 0 with
      | .std i => .ok (sha256 (scriptToBinary
          (if i = 0 then o.lockingScript.dropLast else o.lockingScript.take (i - 1))))
      | .nested i => .ok (sha256 (scriptToBinary (o.lockingScript.take i)))
      | .notFound _ => .ok (sha256 (scriptToBinary o.lockingScript)) := by
  unfold getDataHashE
  rw [ho]

/-- **C2** (amended) — `getDataHash` runs the occurrence scan for
`sigmaInstance` over the target output's chunks.  When the selected
occurrence is a top-level marker at chunk index `i ≥ 1`, it returns SHA-256
of the binary serialization of the chunks strictly before index `i - 1`
(everything before the preceding separator chunk, which is excluded along
with the instance's fields); when the occurrence sits inside an `OP_RETURN`
payload at outer index `i`, everything before that chunk is hashed; when no
occurrence is found, the whole current script is hashed.  When the selected
marker is the script's very first chunk (`i = 0`), JS `slice(0, -1)` hashes
all chunks but the last — not the empty prefix. -/
theorem c2_dataHash (sha256 : Bytes → Bytes) (st : SigmaState) (o : TxOutput)
    (ho : st.transaction.outputs[st.targetVout]? = some o) :
    (∀ i, scanSigma st.sigmaInstance o.lockingScript 0 0 = .std i → 1 ≤ i →
      getDataHashE sha256 st = .ok (sha256 (scriptToBinary (o.lockingScript.take (i - 1)))) ∧
      ∃ c, o.lockingScript[i]? = some c ∧ isMarker c = true) ∧
    (∀ i, scanSigma st.sigmaInstance o.lockingScript 0 0 = .nested i →
      getDataHashE sha256 st = .ok (sha256 (scriptToBinary (o.lockingScript.take i)))) ∧
    (∀ m, scanSigma st.sigmaInstance o.lockingScript 0 0 = .notFound m →
      getDataHashE sha256 st = .ok (sha256 (scriptToBinary o.lockingScript))) ∧
    (scanSigma st.sigmaInstance o.lockingScript 0 0 = .std 0 →
      getDataHashE sha256 st = .ok (sha256 (scriptToBinary o.lockingScript.dropLast))) := by
  refine ⟨?_, ?_, ?_, ?_⟩
  · intro i hscan hi
    constructor
    · rw [getDataHashE_some sha256 st o ho, hscan]
      simp [show ¬ i = 0 from by omega]
    · obtain ⟨-, -, c, hc, hm⟩ := scanSigma_std_spec st.sigmaInstance o.lockingScript 0 0 i hscan
      exact ⟨c, by simpa using hc, hm⟩
  · intro i hscan
    rw [getDataHashE_some sha256 st o ho, hscan]
  · intro m hscan
    rw [getDataHashE_some sha256 st o ho, hscan]
  · intro hscan
    rw [getDataHashE_some sha256 st o ho, hscan]
    simp

/-- Witness for the amended C2: on `sepInstSt` the instance's marker sits at
chunk index 2, so the hashed prefix is the single chunk before the
separator. -/
theorem c2_dataHash_witness :
    getDataHashE hashId sepInstSt = .ok (hashId (scriptToBinary (sepInstScript.take 1))) ∧
    (∃ c, sepInstScript[2]? = some c ∧ isMarker c = true) :=
  ⟨((c2_dataHash hashId sepInstSt ⟨0, sepInstScript⟩ (by decide)).1 2 (by decide) (by decide)).1,
   ((c2_dataHash hashId sepInstSt ⟨0, sepInstScript⟩ (by decide)).1 2 (by decide) (by decide)).2⟩

/-- Counterexample to C2 as stated: on a script whose (single, complete)
instance has its marker as the first chunk, `getDataHash` hashes all
chunks but the last (JS `slice(0, -1)`), not the empty prefix the claim
requires. -/
theorem c2_counterexample :
    getDataHashE hashId markerFirstSt
      = .ok (scriptToBinary ((signedChunksBSM [2] [1] 0).take 4)) ∧
    getDataHashE hashId markerFirstSt ≠ .ok (hashId (scriptToBinary ([] : Script))) := by
  constructor
  · decide
  · decide

/-- **C8** (amended) — After every `setSigmaInstance` the caches are
recomputed: they hold exactly the values `getInputHash`/`getDataHash`
freshly compute for the new selection.  `setTargetVout`, however, only
stores the new target and leaves both caches untouched (stale until the
caller triggers `setHashes`/`setSigmaInstance`). -/
theorem c8_setSigmaInstance (sha256 : Bytes → Bytes) (st : SigmaState) (k : Nat)
    (st' : SigmaState) (h : setSigmaInstance sha256 st k = .ok st') :
    st'.sigmaInstance = k ∧ st'.targetVout = st.targetVout ∧
    st'.inputHash = some (getInputHash sha256 st') ∧
    (∃ d, getDataHashE sha256 st' = .ok d ∧ st'.dataHash = some d) ∧
    (∀ v, (setTargetVout st v).inputHash = st.inputHash ∧
      (setTargetVout st v).dataHash = st.dataHash ∧
      (setTargetVout st v).targetVout = v) := by
  have hmain : st'.sigmaInstance = k ∧ st'.targetVout = st.targetVout ∧
      st'.inputHash = some (getInputHash sha256 st') ∧
      (∃ d, getDataHashE sha256 st' = .ok d ∧ st'.dataHash = some d) := by
    rw [setSigmaInstance] at h
    cases hd : getDataHashE sha256 { st with sigmaInstance := k } with
    | error e => rw [setHashes, hd] at h; cases h
    | ok dh =>
      rw [setHashes, hd] at h
      simp at h
      subst h
      refine ⟨rfl, rfl, ?_, dh, ?_, rfl⟩
      · exact congrArg some (getInputHash_congr sha256 _ _ rfl rfl rfl)
      · rw [← hd]
        exact getDataHashE_congr sha256 _ _ rfl rfl rfl
  exact ⟨hmain.1, hmain.2.1, hmain.2.2.1, hmain.2.2.2, fun v => ⟨rfl, rfl, rfl⟩⟩

/-- Witness for the amended C8 at a concrete context. -/
theorem c8_setSigmaInstance_witness :
    ∃ st' : SigmaState, setSigmaInstance hashId twoOutSt 0 = .ok st' ∧
      (st'.inputHash = some (getInputHash hashId st') ∧
        ∃ d, getDataHashE hashId st' = .ok d ∧ st'.dataHash = some d) := by
  refine ⟨twoOutSt, by decide, ?_⟩
  have := c8_setSigmaInstance hashId twoOutSt 0 twoOutSt (by decide)
  exact ⟨this.2.2.1, this.2.2.2.1⟩

/-- Counterexample to C8 as stated: after `setTargetVout` to output 1 of the
two-output transaction, the cached data hash still holds output 0's value,
not what `getDataHash` freshly computes for output 1. -/
theorem c8_counterexample :
    mkSigma hashId twoOutTx 0 0 0 = .ok twoOutSt ∧
    (setTargetVout twoOutSt 1).dataHash = some (scriptToBinary [mkPush [1]]) ∧
    getDataHashE hashId (setTargetVout twoOutSt 1) = .ok (scriptToBinary [mkPush [2, 2]]) ∧
    scriptToBinary [mkPush [1]] ≠ scriptToBinary [mkPush [2, 2]] := by
  refine ⟨by decide, by decide, by decide, by decide⟩

/-- The target-vout tag does not affect how many instances parse (inner scan). -/
theorem parseInner_length (tv : Nat) (s : Script) :
    (parseInner tv s).length = (parseInner 0 s).length := by
  induction s using parseInner.induct tv <;> simp_all [parseInner]

/-- The target-vout tag does not affect how many instances parse. -/
theorem parseSigmaInstances_length (tv : Nat) (s : Script) :
    (parseSigmaInstances tv s).length = (parseSigmaInstances 0 s).length := by
  induction s using parseSigmaInstances.induct tv <;>
    try simp_all [parseSigmaInstances, parseInner_length tv]
  all_goals split_ifs with hcond
  all_goals simp_all

/-- Occurrence totals add over concatenation. -/
theorem occTotal_append (xs ys : Script) :
    occTotal (xs ++ ys) = occTotal xs + occTotal ys := by
  simp [occTotal]

/-- A push chunk is never an `OP_RETURN` payload chunk: its opcode is the
push length (≤ 75) or `OP_PUSHDATA1/2/4` (76–78), never 0x6a. -/
theorem isOpReturnPayload_mkPush (d : Bytes) : isOpReturnPayload (mkPush d) = false := by
  simp only [isOpReturnPayload, mkPush, pushOpOf, opRETURN]
  split_ifs with h1 h2 h3
  all_goals simp
  all_goals omega

/-- A push chunk contributes no nested occurrences. -/
theorem innerMarkerCount_mkPush (d : Bytes) : innerMarkerCount (mkPush d) = 0 := by
  simp [innerMarkerCount, isOpReturnPayload_mkPush]

/-- A non-marker push counts zero occurrences. -/
theorem occTotal_single_mkPush (d : Bytes) (hd : d ≠ sigmaMarkerBytes) :
    occTotal [mkPush d] = 0 := by
  have h1 : isMarker (mkPush d) = false := by simp [isMarker, mkPush, hd]
  simp [occTotal, h1, innerMarkerCount_mkPush]

/-- The separator chunk counts zero occurrences. -/
theorem occTotal_separator (b : Bool) :
    occTotal [if b then pipeChunk else opReturnChunk] = 0 := by
  cases b <;> decide

/-- The five freshly signed chunks contain exactly one occurrence (the
marker), provided none of the variable fields is itself the marker
bytes. -/
theorem occTotal_signedChunksBSM (address sigBytes : Bytes) (vin : Int)
    (ha : address ≠ sigmaMarkerBytes) (hb : sigBytes ≠ sigmaMarkerBytes)
    (hv : intDecBytes vin ≠ sigmaMarkerBytes) :
    occTotal (signedChunksBSM address sigBytes vin) = 1 := by
  have hm : isMarker (mkPush sigmaMarkerBytes) = true := by decide
  have h1 : isMarker (mkPush algoBSMBytes) = false := by decide
  have h2 : isMarker (mkPush address) = false := by simp [isMarker, mkPush, ha]
  have h3 : isMarker (mkPush sigBytes) = false := by simp [isMarker, mkPush, hb]
  have h4 : isMarker (mkPush (intDecBytes vin)) = false := by simp [isMarker, mkPush, hv]
  simp [occTotal, signedChunksBSM, hm, h1, h2, h3, h4, innerMarkerCount_mkPush]

/-- When the replace guard cannot fire — some instance parses (so
`instances[sigmaInstance]?` is `none` exactly at the count), or the
selected index is nonzero while nothing parses, or no occurrence position
is found — `_applySignature` is a pure append: the five new chunks after a
single separator after the unchanged existing script. -/
theorem applySignature_no_splice (signedChunks : List Chunk) (sig : SigRec)
    (st : SigmaState) (o : TxOutput)
    (ho : st.transaction.outputs[st.targetVout]? = some o)
    (hns : parseSigmaInstances st.targetVout o.lockingScript ≠ [] ∨
      st.sigmaInstance ≠ 0 ∨
      findSigmaPosition o.lockingScript st.sigmaInstance = -1) :
    applySignature signedChunks sig st =
      { st with
        cachedSig := some sig,
        transaction :=
          { version := st.transaction.version,
            inputs := st.transaction.inputs,
            outputs := st.transaction.outputs.set st.targetVout
              ⟨o.satoshis,
               o.lockingScript ++
                 [if containsOpReturn o.lockingScript then pipeChunk else opReturnChunk] ++
                 signedChunks⟩ } } := by
  have ho1 : ({ st with cachedSig := some sig } : SigmaState).transaction.outputs[
      ({ st with cachedSig := some sig } : SigmaState).targetVout]? = some o := ho
  have hts : targetScript { st with cachedSig := some sig } = o.lockingScript := by
    unfold targetScript
    rw [ho1]
    rfl
  have hcount : getSigInstanceCount { st with cachedSig := some sig }
      = (parseSigmaInstances 0 o.lockingScript).length := by
    unfold getSigInstanceCount
    rw [ho1]
    rfl
  have hposn : getSigInstancePosition { st with cachedSig := some sig }
      = findSigmaPosition o.lockingScript st.sigmaInstance := by
    unfold getSigInstancePosition
    rw [ho1]
  have hcond : ¬((sigGet { st with cachedSig := some sig }).isSome = true ∧
      ({ st with cachedSig := some sig } : SigmaState).sigmaInstance
        = getSigInstanceCount { st with cachedSig := some sig } ∧
      getSigInstancePosition { st with cachedSig := some sig } ≠ -1) := by
    rintro ⟨hsome, hicount, hpos⟩
    by_cases hp : parseSigmaInstances st.targetVout o.lockingScript = []
    · rcases hns with hns | hns | hns
      · exact hns hp
      · apply hns
        have h0 : (parseSigmaInstances 0 o.lockingScript).length = 0 := by
          rw [← parseSigmaInstances_length st.targetVout, hp]
          rfl
        have : ({ st with cachedSig := some sig } : SigmaState).sigmaInstance
            = st.sigmaInstance := rfl
        rw [this, hcount, h0] at hicount
        exact hicount
      · rw [hposn] at hpos
        exact hpos hns
    · have hsg : sigGet { st with cachedSig := some sig }
          = (parseSigmaInstances st.targetVout o.lockingScript)[st.sigmaInstance]? := by
        unfold sigGet
        rw [ho1]
        simp [hp]
      have hilen : st.sigmaInstance = (parseSigmaInstances st.targetVout o.lockingScript).length := by
        have := hicount
        rw [hcount, ← parseSigmaInstances_length st.targetVout] at this
        exact this
      have : (parseSigmaInstances st.targetVout o.lockingScript)[st.sigmaInstance]? = none := by
        rw [hilen]
        exact List.getElem?_eq_none (le_refl _)
      rw [hsg, this] at hsome
      cases hsome
  simp only [applySignature]
  rw [if_neg hcond, hts]
  have hsats : ((({ st with cachedSig := some sig } : SigmaState).transaction.outputs[
      ({ st with cachedSig := some sig } : SigmaState).targetVout]?).map
        (fun x => x.satoshis)).getD 0 = o.satoshis := by
    rw [ho1]
    rfl
  rw [hsats]

/-- One loop iteration of `deduceRecovery` succeeds exactly when the
candidate key recovers, validates the signature, and derives the claimed
address. -/
theorem tryRecovery_iff (recoverPublicKey : Bytes → Nat → Bytes → Option Nat)
    (bsmVerify : Bytes → Bytes → Nat → Bool) (pubkeyToAddress : Nat → Bytes)
    (magicHash : Bytes → Bytes) (signature message address : Bytes) (r : Nat) :
    tryRecovery recoverPublicKey bsmVerify pubkeyToAddress magicHash
        signature message address r = true ↔
      ∃ pk, recoverPublicKey signature r (magicHash message) = some pk ∧
        bsmVerify message signature pk = true ∧ pubkeyToAddress pk = address := by
  unfold tryRecovery
  cases hrec : recoverPublicKey signature r (magicHash message) with
  | none => simp
  | some pk => simp [Bool.and_eq_true, decide_eq_true_eq]

/-- `deduceRecovery` differs from -1 exactly when some recovery id in 0..3
passes the per-id check. -/
theorem deduceRecovery_found_iff (recoverPublicKey : Bytes → Nat → Bytes → Option Nat)
    (bsmVerify : Bytes → Bytes → Nat → Bool) (pubkeyToAddress : Nat → Bytes)
    (magicHash : Bytes → Bytes) (signature message address : Bytes) :
    deduceRecovery recoverPublicKey bsmVerify pubkeyToAddress magicHash
        signature message address ≠ -1 ↔
      ∃ r, r < 4 ∧ tryRecovery recoverPublicKey bsmVerify pubkeyToAddress magicHash
        signature message address r = true := by
  unfold deduceRecovery
  by_cases h0 : tryRecovery recoverPublicKey bsmVerify pubkeyToAddress magicHash
      signature message address 0 = true
  · simp only [h0, if_true]
    exact ⟨fun _ => ⟨0, by omega, h0⟩, fun _ => by decide⟩
  · by_cases h1 : tryRecovery recoverPublicKey bsmVerify pubkeyToAddress magicHash
        signature message address 1 = true
    · simp only [h0, h1, if_true, if_false]
      exact ⟨fun _ => ⟨1, by omega, h1⟩, fun _ => by decide⟩
    · by_cases h2 : tryRecovery recoverPublicKey bsmVerify pubkeyToAddress magicHash
          signature message address 2 = true
      · simp only [h0, h1, h2, if_true, if_false]
        exact ⟨fun _ => ⟨2, by omega, h2⟩, fun _ => by decide⟩
      · by_cases h3 : tryRecovery recoverPublicKey bsmVerify pubkeyToAddress magicHash
            signature message address 3 = true
        · simp only [h0, h1, h2, h3, if_true, if_false]
          exact ⟨fun _ => ⟨3, by omega, h3⟩, fun _ => by decide⟩
        · simp only [h0, h1, h2, h3, if_false]
          constructor
          · intro hne; exact absurd rfl hne
          · rintro ⟨r, hr, htr⟩
            interval_cases r <;> simp_all

/-- **C6** — For a selected BSM record, `verify` returns true exactly when
some recovery id in 0..3 recovers a public key that both validates the
signature and derives the record's claimed address; when no recovery id
does, it returns false.  The record stores no recovery id at all
(`SigRec` has no such field), so none is trusted. -/
theorem c6_verify_bsm (recoverPublicKey : Bytes → Nat → Bytes → Option Nat)
    (bsmVerify : Bytes → Bytes → Nat → Bool) (pubkeyToAddress : Nat → Bytes)
    (magicHash : Bytes → Bytes) (sha256 : Bytes → Bytes)
    (brc77Verify : Bytes → Bytes → Option Nat → Bool) (recipientKey : Option Nat)
    (st : SigmaState) (s : SigRec) (m : Bytes)
    (hs : sigGet st = some s) (halg : s.algorithm = algoBSMBytes)
    (hm : getMessageHash sha256 st = .ok m) :
    (verifyE recoverPublicKey bsmVerify pubkeyToAddress magicHash sha256 brc77Verify
        recipientKey st = .ok true ↔
      ∃ r, r < 4 ∧ ∃ pk, recoverPublicKey s.signature r (magicHash m) = some pk ∧
        bsmVerify m s.signature pk = true ∧ pubkeyToAddress pk = s.address) ∧
    (¬(∃ r, r < 4 ∧ ∃ pk, recoverPublicKey s.signature r (magicHash m) = some pk ∧
        bsmVerify m s.signature pk = true ∧ pubkeyToAddress pk = s.address) →
      verifyE recoverPublicKey bsmVerify pubkeyToAddress magicHash sha256 brc77Verify
        recipientKey st = .ok false) := by
  have hne : (s.algorithm = algoBRC77Bytes) = False := by
    rw [halg]
    simp [algoBSMBytes, algoBRC77Bytes]
  have hred : verifyE recoverPublicKey bsmVerify pubkeyToAddress magicHash sha256
      brc77Verify recipientKey st
      = .ok (decide (deduceRecovery recoverPublicKey bsmVerify pubkeyToAddress magicHash
          s.signature m s.address ≠ -1)) := by
    unfold verifyE
    rw [hs]
    simp [hm, hne]
  have hiff := deduceRecovery_found_iff recoverPublicKey bsmVerify pubkeyToAddress
    magicHash s.signature m s.address
  constructor
  · rw [hred]
    constructor
    · intro hok
      have : decide (deduceRecovery recoverPublicKey bsmVerify pubkeyToAddress magicHash
          s.signature m s.address ≠ -1) = true := by
        injection hok
      obtain ⟨r, hr, htr⟩ := hiff.mp (of_decide_eq_true this)
      exact ⟨r, hr, (tryRecovery_iff recoverPublicKey bsmVerify pubkeyToAddress magicHash
        s.signature m s.address r).mp htr⟩
    · rintro ⟨r, hr, pk, hrec, hver, haddr⟩
      have htr : tryRecovery recoverPublicKey bsmVerify pubkeyToAddress magicHash
          s.signature m s.address r = true :=
        (tryRecovery_iff recoverPublicKey bsmVerify pubkeyToAddress magicHash
          s.signature m s.address r).mpr ⟨pk, hrec, hver, haddr⟩
      have := hiff.mpr ⟨r, hr, htr⟩
      simp [this]
  · intro hnone
    rw [hred]
    have : deduceRecovery recoverPublicKey bsmVerify pubkeyToAddress magicHash
        s.signature m s.address = -1 := by
      by_contra hne2
      obtain ⟨r, hr, htr⟩ := hiff.mp hne2
      exact hnone ⟨r, hr, (tryRecovery_iff recoverPublicKey bsmVerify pubkeyToAddress
        magicHash s.signature m s.address r).mp htr⟩
    simp [this]

/-- Witness for C6: with the test primitives, recovery id 2 succeeds and
verification returns true. -/
theorem c6_verify_bsm_witness :
    verifyE recovTest bsmVerifyTest toAddrTest magicTest hashId brc77Test none bsmRecSt
      = .ok true :=
  (c6_verify_bsm recovTest bsmVerifyTest toAddrTest magicTest hashId brc77Test none
      bsmRecSt ⟨algoBSMBytes, [9], [5], some 0, 0⟩ [] (by decide) rfl (by decide)).1.mpr
    ⟨2, by omega, 7, rfl, rfl, rfl⟩

/-- A successful `signBSM` is `_applySignature` of the five signed chunks
and the new record. -/
theorem signBSM_ok (sha256 : Bytes → Bytes) (address sigBytes : Bytes)
    (st st' : SigmaState) (h : signBSM sha256 address sigBytes st = .ok st') :
    st' = applySignature (signedChunksBSM address sigBytes (resolvedVin st))
      { algorithm := algoBSMBytes, address := address, signature := sigBytes,
        vin := some (resolvedVin st), targetVout := st.targetVout } st := by
  cases hm : getMessageHash sha256 st with
  | error e => rw [signBSM, hm] at h; cases h
  | ok m =>
    rw [signBSM, hm] at h
    simpa using h.symm

/-- **C1** (amended) — Every successful sign *appends* the freshly built
instance exactly once, after the existing script content and a single
separator (pipe if the script already contains `OP_RETURN`, else
`OP_RETURN`), whenever the replace-splice cannot fire: some instance
parses, or the selected index is nonzero, or no marker occurrence sits at
the selected index.  The occurrence count then grows by exactly one.
(When the splice does fire — possible only on scripts whose marker
occurrences outnumber their parseable instances — the five chunks at the
found position are rewritten *and* the instance is still appended, so the
signed script carries it twice; see the counterexample.) -/
theorem c1_sign_appends (sha256 : Bytes → Bytes) (address sigBytes : Bytes)
    (st st' : SigmaState) (o : TxOutput)
    (ho : st.transaction.outputs[st.targetVout]? = some o)
    (hsign : signBSM sha256 address sigBytes st = .ok st')
    (hns : parseSigmaInstances st.targetVout o.lockingScript ≠ [] ∨
      st.sigmaInstance ≠ 0 ∨
      findSigmaPosition o.lockingScript st.sigmaInstance = -1)
    (ha : address ≠ sigmaMarkerBytes) (hb : sigBytes ≠ sigmaMarkerBytes)
    (hv : intDecBytes (resolvedVin st) ≠ sigmaMarkerBytes) :
    (st'.transaction.outputs[st.targetVout]?).map TxOutput.lockingScript
      = some (o.lockingScript
          ++ [if containsOpReturn o.lockingScript then pipeChunk else opReturnChunk]
          ++ signedChunksBSM address sigBytes (resolvedVin st)) ∧
    occTotal (o.lockingScript
        ++ [if containsOpReturn o.lockingScript then pipeChunk else opReturnChunk]
        ++ signedChunksBSM address sigBytes (resolvedVin st))
      = occTotal o.lockingScript + 1 := by
  have happ := signBSM_ok sha256 address sigBytes st st' hsign
  rw [applySignature_no_splice _ _ st o ho hns] at happ
  constructor
  · obtain ⟨hlt, -⟩ := List.getElem?_eq_some.mp ho
    rw [happ]
    dsimp only
    rw [List.getElem?_set_self hlt]
    rfl
  · rw [occTotal_append, occTotal_append, occTotal_separator,
      occTotal_signedChunksBSM address sigBytes _ ha hb hv]

/-- Witness for the amended C1: signing the marker-free `plainTx` appends
the instance once after an `OP_RETURN` separator. -/
theorem c1_sign_appends_witness :
    (plainSigned.transaction.outputs[plainSt.targetVout]?).map TxOutput.lockingScript
      = some ([mkPush [1, 2, 3]]
          ++ [if containsOpReturn [mkPush [1, 2, 3]] then pipeChunk else opReturnChunk]
          ++ signedChunksBSM [2] [1] (resolvedVin plainSt)) ∧
    occTotal ([mkPush [1, 2, 3]]
        ++ [if containsOpReturn [mkPush [1, 2, 3]] then pipeChunk else opReturnChunk]
        ++ signedChunksBSM [2] [1] (resolvedVin plainSt))
      = occTotal [mkPush [1, 2, 3]] + 1 :=
  c1_sign_appends hashId [2] [1] plainSt plainSigned ⟨0, [mkPush [1, 2, 3]]⟩
    (by decide) (by decide) (Or.inr (Or.inr (by decide)))
    (by decide) (by decide) (by decide)

/-- Counterexample to C1 as stated: over a script holding a lone (truncated)
marker, with `sigmaInstance = 0`, the replace-splice fires *and* the append
still happens, so the signed script contains the freshly produced instance
twice (both parse to the identical record). -/
theorem c1_counterexample :
    signBSM hashId [2] [1] loneMarkerSt = .ok loneMarkerSigned ∧
    (loneMarkerSigned.transaction.outputs[0]?).map TxOutput.lockingScript
      = some (signedChunksBSM [2] [1] 0 ++ opReturnChunk :: signedChunksBSM [2] [1] 0) ∧
    parseSigmaInstances 0
        (signedChunksBSM [2] [1] 0 ++ opReturnChunk :: signedChunksBSM [2] [1] 0)
      = [newRec, newRec] := by
  refine ⟨by decide, by decide, by decide⟩


/-- The separator chunk contributes no nested occurrences. -/
theorem innerMarkerCount_separator (b : Bool) :
    innerMarkerCount (if b then pipeChunk else opReturnChunk) = 0 := by
  cases b <;> decide

/-- The separator chunk is not a marker. -/
theorem isMarker_separator (b : Bool) :
    isMarker (if b then pipeChunk else opReturnChunk) = false := by
  cases b <;> decide

/-- Scanning the appended separator-plus-instance tail with the occurrence
counter already at the selected index finds the appended marker, one chunk
past the separator. -/
theorem scanSigma_sep_signed (k n : Nat) (sep : Chunk) (address sigBytes : Bytes) (vin : Int)
    (hsep1 : isMarker sep = false) (hsep2 : innerMarkerCount sep = 0) :
    scanSigma k (sep :: signedChunksBSM address sigBytes vin) n k = .std (n + 1) := by
  rw [scanSigma]
  rw [if_neg (by simp [hsep1])]
  simp only [hsep2]
  rw [if_neg (by omega)]
  rw [signedChunksBSM, scanSigma]
  rw [if_pos (by decide)]
  rw [if_pos (by omega : k + 0 = k)]

/-- The constructor succeeds, with synced caches, whenever the target
output's data hash computes. -/
theorem mkSigma_ok (sha256 : Bytes → Bytes) (tx : Transaction) (tv si : Nat) (rv : Int)
    (d : Bytes)
    (hd : getDataHashE sha256
        ⟨tx, tv, si, rv, none, none, sigGet ⟨tx, tv, si, rv, none, none, none⟩⟩ = .ok d) :
    mkSigma sha256 tx tv si rv = .ok
      ⟨tx, tv, si, rv,
       some (getInputHash sha256
         ⟨tx, tv, si, rv, none, none, sigGet ⟨tx, tv, si, rv, none, none, none⟩⟩),
       some d, sigGet ⟨tx, tv, si, rv, none, none, none⟩⟩ := by
  rw [mkSigma, setHashes, hd]

/-- **C5** (amended) — For a signing context with synced caches, after a
successful sign, a fresh context over the returned transaction (same
targetVout, sigmaInstance, refVin) recomputes `inputHash`, `dataHash`,
`messageHash`, and `getSigInstanceCount` to exactly the values observed on
the signing context immediately after signing — provided the selected
occurrence index is not beyond the pre-sign script's occurrences: either it
equals the occurrence count (the appended instance becomes the selected
one), or a pre-existing top-level occurrence at chunk index ≥ 1, or a
nested occurrence, is selected (with the replace-splice not firing).
Indices beyond the occurrence count break the round-trip; see the
counterexample. -/
theorem c5_roundtrip (sha256 : Bytes → Bytes) (address sigBytes : Bytes)
    (st st' : SigmaState) (o : TxOutput) (d : Bytes)
    (ho : st.transaction.outputs[st.targetVout]? = some o)
    (hsync_i : st.inputHash = some (getInputHash sha256 st))
    (hsync_d1 : getDataHashE sha256 st = .ok d)
    (hsync_d2 : st.dataHash = some d)
    (hsign : signBSM sha256 address sigBytes st = .ok st')
    (hscan : scanSigma st.sigmaInstance o.lockingScript 0 0 = .notFound st.sigmaInstance ∨
      ((∃ i, scanSigma st.sigmaInstance o.lockingScript 0 0 = .std i ∧ 1 ≤ i) ∨
        (∃ i, scanSigma st.sigmaInstance o.lockingScript 0 0 = .nested i)) ∧
      (parseSigmaInstances st.targetVout o.lockingScript ≠ [] ∨ st.sigmaInstance ≠ 0)) :
    ∃ f, mkSigma sha256 st'.transaction st.targetVout st.sigmaInstance st.refVin = .ok f ∧
      getInputHash sha256 f = getInputHash sha256 st' ∧
      getDataHashE sha256 f = getDataHashE sha256 st' ∧
      getMessageHash sha256 f = getMessageHash sha256 st' ∧
      getSigInstanceCount f = getSigInstanceCount st' := by
  have hns : parseSigmaInstances st.targetVout o.lockingScript ≠ [] ∨ st.sigmaInstance ≠ 0 ∨
      findSigmaPosition o.lockingScript st.sigmaInstance = -1 := by
    rcases hscan with hnf | ⟨-, hp⟩
    · right; right; unfold findSigmaPosition; rw [hnf]
    · rcases hp with hp | hp
      · left; exact hp
      · right; left; exact hp
  have happ := signBSM_ok sha256 address sigBytes st st' hsign
  rw [applySignature_no_splice _ _ st o ho hns] at happ
  obtain ⟨hlt, -⟩ := List.getElem?_eq_some.mp ho
  have hassoc : o.lockingScript
        ++ [if containsOpReturn o.lockingScript then pipeChunk else opReturnChunk]
        ++ signedChunksBSM address sigBytes (resolvedVin st)
      = o.lockingScript
        ++ ((if containsOpReturn o.lockingScript then pipeChunk else opReturnChunk)
            :: signedChunksBSM address sigBytes (resolvedVin st)) := by
    rw [List.append_assoc]
    rfl
  have hDH_eq : ∀ s2 : SigmaState,
      s2.transaction.outputs = st.transaction.outputs.set st.targetVout
        ⟨o.satoshis, o.lockingScript
          ++ [if containsOpReturn o.lockingScript then pipeChunk else opReturnChunk]
          ++ signedChunksBSM address sigBytes (resolvedVin st)⟩ →
      s2.targetVout = st.targetVout → s2.sigmaInstance = st.sigmaInstance →
      getDataHashE sha256 s2 = getDataHashE sha256 st := by
    intro s2 h1 h2 h3
    have ho2 : s2.transaction.outputs[s2.targetVout]? = some
        ⟨o.satoshis, o.lockingScript
          ++ [if containsOpReturn o.lockingScript then pipeChunk else opReturnChunk]
          ++ signedChunksBSM address sigBytes (resolvedVin st)⟩ := by
      rw [h1, h2]
      exact List.getElem?_set_self hlt
    have hred2 := getDataHashE_some sha256 s2 _ ho2
    have hred1 := getDataHashE_some sha256 st o ho
    rcases hscan with hnf | ⟨hfound, -⟩
    · have hA : scanSigma s2.sigmaInstance (o.lockingScript
          ++ [if containsOpReturn o.lockingScript then pipeChunk else opReturnChunk]
          ++ signedChunksBSM address sigBytes (resolvedVin st)) 0 0
          = .std (o.lockingScript.length + 1) := by
        rw [h3, hassoc, scanSigma_append, hnf]
        have := scanSigma_sep_signed st.sigmaInstance o.lockingScript.length
          (if containsOpReturn o.lockingScript then pipeChunk else opReturnChunk)
          address sigBytes (resolvedVin st) (isMarker_separator _)
          (innerMarkerCount_separator _)
        simpa using this
      rw [hred2, hA, hred1, hnf]
      have htake : ((o.lockingScript
          ++ [if containsOpReturn o.lockingScript then pipeChunk else opReturnChunk]
          ++ signedChunksBSM address sigBytes (resolvedVin st)).take
            (o.lockingScript.length + 1 - 1)) = o.lockingScript := by
        rw [List.append_assoc, Nat.add_sub_cancel,
          List.take_append_of_le_length (le_refl _), List.take_length]
      simp [htake]
    · rcases hfound with ⟨i, hstd, hi⟩ | ⟨i, hnested⟩
      · have hib : i < o.lockingScript.length := by
          have := scanSigma_std_spec st.sigmaInstance o.lockingScript 0 0 i hstd
          omega
        have hB : scanSigma s2.sigmaInstance (o.lockingScript
            ++ [if containsOpReturn o.lockingScript then pipeChunk else opReturnChunk]
            ++ signedChunksBSM address sigBytes (resolvedVin st)) 0 0 = .std i := by
          rw [h3, hassoc, scanSigma_append, hstd]
        have htake : ((o.lockingScript
            ++ ((if containsOpReturn o.lockingScript then pipeChunk else opReturnChunk)
                :: signedChunksBSM address sigBytes (resolvedVin st))).take (i - 1))
            = o.lockingScript.take (i - 1) :=
          List.take_append_of_le_length (by omega)
        have hine : ¬ i = 0 := by omega
        rw [hred2, hB, hred1, hstd]
        simp [hine, htake]
      · have hib : i < o.lockingScript.length := by
          have := scanSigma_nested_spec st.sigmaInstance o.lockingScript 0 0 i hnested
          omega
        have hC : scanSigma s2.sigmaInstance (o.lockingScript
            ++ [if containsOpReturn o.lockingScript then pipeChunk else opReturnChunk]
            ++ signedChunksBSM address sigBytes (resolvedVin st)) 0 0 = .nested i := by
          rw [h3, hassoc, scanSigma_append, hnested]
        have htake : ((o.lockingScript
            ++ ((if containsOpReturn o.lockingScript then pipeChunk else opReturnChunk)
                :: signedChunksBSM address sigBytes (resolvedVin st))).take i)
            = o.lockingScript.take i :=
          List.take_append_of_le_length (by omega)
        rw [hred2, hC, hred1, hnested]
        simp [htake]
  have hdh1 : getDataHashE sha256
      ⟨st'.transaction, st.targetVout, st.sigmaInstance, st.refVin, none, none,
       sigGet ⟨st'.transaction, st.targetVout, st.sigmaInstance, st.refVin,
         none, none, none⟩⟩ = .ok d :=
    (hDH_eq
      ⟨st'.transaction, st.targetVout, st.sigmaInstance, st.refVin, none, none,
       sigGet ⟨st'.transaction, st.targetVout, st.sigmaInstance, st.refVin,
         none, none, none⟩⟩
      (by rw [happ]) rfl rfl).trans hsync_d1
  have hmk := mkSigma_ok sha256 st'.transaction st.targetVout st.sigmaInstance st.refVin d hdh1
  refine ⟨_, hmk, ?_, ?_, ?_, ?_⟩
  · exact getInputHash_congr sha256 _ _ rfl (by rw [happ]) (by rw [happ])
  · exact getDataHashE_congr sha256 _ _ rfl (by rw [happ]) (by rw [happ])
  · have h1 : st'.inputHash = some (getInputHash sha256 st) := by
      rw [happ]
      exact hsync_i
    have h2 : st'.dataHash = some d := by
      rw [happ]
      exact hsync_d2
    have hih : getInputHash sha256
        ⟨st'.transaction, st.targetVout, st.sigmaInstance, st.refVin, none, none,
         sigGet ⟨st'.transaction, st.targetVout, st.sigmaInstance, st.refVin,
           none, none, none⟩⟩ = getInputHash sha256 st :=
      getInputHash_congr sha256 _ _ (by rw [happ]) rfl rfl
    unfold getMessageHash
    rw [h1, h2]
    dsimp only
    rw [hih]
  · exact getSigInstanceCount_congr _ _ rfl (by rw [happ])

/-- Witness for the amended C5: signing the marker-free `plainTx` at
instance 0 and re-parsing round-trips all four values. -/
theorem c5_roundtrip_witness :
    ∃ f, mkSigma hashId plainSigned.transaction plainSt.targetVout plainSt.sigmaInstance
        plainSt.refVin = .ok f ∧
      getInputHash hashId f = getInputHash hashId plainSigned ∧
      getDataHashE hashId f = getDataHashE hashId plainSigned ∧
      getMessageHash hashId f = getMessageHash hashId plainSigned ∧
      getSigInstanceCount f = getSigInstanceCount plainSigned :=
  c5_roundtrip hashId [2] [1] plainSt plainSigned ⟨0, [mkPush [1, 2, 3]]⟩ [3, 1, 2, 3]
    (by decide) (by decide) (by decide) (by decide) (by decide) (Or.inl (by decide))

/-- Counterexample to C5 as stated: selecting `sigmaInstance = 1` over a
marker-free output, signing, and rebuilding a fresh context over the
returned transaction changes the cached data hash (the fresh scan finds no
occurrence 1 and hashes the whole new script), so the recomputed
`messageHash` differs from the one observed on the signing context. -/
theorem c5_counterexample :
    mkSigma hashId plainTx 0 1 0 = .ok overIndexSt ∧
    signBSM hashId [2] [1] overIndexSt = .ok overIndexSigned ∧
    mkSigma hashId overIndexSigned.transaction 0 1 0 = .ok overIndexFresh ∧
    overIndexFresh.dataHash ≠ overIndexSigned.dataHash ∧
    getMessageHash hashId overIndexFresh ≠ getMessageHash hashId overIndexSigned := by
  refine ⟨by decide, by decide, by decide, by decide, by decide⟩

end Sigma
